import Mathlib

/-!
Verification development for the HTTP-to-MCP transport adapter
(`src/mcp/HttpServerTransport.ts`) and the Middy HTTP bridge middleware
(`src/mcp/index.ts`).

The TypeScript sources are shallowly embedded:
* JSON values, `JSON.parse` (integer numerals only), `JSON.stringify`,
  lenient base64 decoding and the JSON-RPC message schema model the
  platform / protocol-SDK primitives the bridge calls.
* The transport adapter's mutable fields (`_started`, `_pendingRequests`
  and the per-invocation promise slots created by `Promise.all`) become an
  explicit `TransportState`; `send` and the synchronous prefix of
  `handleJSONRPCMessages` are state transformers, and the completion of
  `Promise.all` is the pure `finishBatch`.
-/

namespace Mcp

/-- JSON values (numbers restricted to integers, which covers every
message id and every payload exercised here). -/
inductive Json where
  | null
  | bool (b : Bool)
  | num (n : Int)
  | str (s : String)
  | arr (elems : List Json)
  | obj (members : List (String × Json))

/-- Whitespace characters recognised by `JSON.parse`. -/
def isWsChar (c : Char) : Bool := c = ' ' || c = '\t' || c = '\n' || c = '\r'

def skipWs (cs : List Char) : List Char := cs.dropWhile isWsChar

def isDigitChar (c : Char) : Bool := '0' ≤ c && c ≤ '9'

def digitsToNat (ds : List Char) : Nat :=
  ds.foldl (fun a c => a * 10 + (c.toNat - 48)) 0

/-- Character produced by a backslash escape inside a JSON string literal. -/
def unescapeChar (e : Char) : Char :=
  if e = 'n' then '\n'
  else if e = 't' then '\t'
  else if e = 'r' then '\r'
  else if e = 'b' then Char.ofNat 8
  else if e = 'f' then Char.ofNat 12
  else e

/-- Body of a JSON string literal, after the opening quote. -/
def parseStringBody : List Char → String → Option (String × List Char)
  | [], _ => none
  | '\\' :: [], _ => none
  | '\\' :: e :: rest, acc => parseStringBody rest (acc.push (unescapeChar e))
  | c :: rest, acc =>
    if c = '"' then some (acc, rest) else parseStringBody rest (acc.push c)

/-- Integer numeral (optional minus sign, decimal digits). -/
def parseNumber (cs : List Char) : Option (Int × List Char) :=
  match cs with
  | '-' :: rest =>
    let ds := rest.takeWhile isDigitChar
    if ds = [] then none
    else some (-(Int.ofNat (digitsToNat ds)), rest.drop ds.length)
  | _ =>
    let ds := cs.takeWhile isDigitChar
    if ds = [] then none
    else some (Int.ofNat (digitsToNat ds), cs.drop ds.length)

mutual

/-- Fuel-indexed recursive-descent JSON value reader, modelling
`JSON.parse` on the fragment used by the bridge. -/
def parseValue : Nat → List Char → Option (Json × List Char)
  | 0, _ => none
  | Nat.succ fuel, cs =>
    match skipWs cs with
    | 'n' :: 'u' :: 'l' :: 'l' :: rest => some (Json.null, rest)
    | 't' :: 'r' :: 'u' :: 'e' :: rest => some (Json.bool true, rest)
    | 'f' :: 'a' :: 'l' :: 's' :: 'e' :: rest => some (Json.bool false, rest)
    | '"' :: rest =>
      (match parseStringBody rest "" with
       | some (s, rest2) => some (Json.str s, rest2)
       | none => none)
    | '[' :: rest =>
      (match skipWs rest with
       | ']' :: rest2 => some (Json.arr [], rest2)
       | _ =>
         match parseElems fuel (skipWs rest) with
         | some (xs, rest2) => some (Json.arr xs, rest2)
         | none => none)
    | '\x7b' :: rest =>
      (match skipWs rest with
       | '\x7d' :: rest2 => some (Json.obj [], rest2)
       | _ =>
         match parseMembers fuel (skipWs rest) with
         | some (ms, rest2) => some (Json.obj ms, rest2)
         | none => none)
    | cs2 =>
      (match parseNumber cs2 with
       | some (n, rest) => some (Json.num n, rest)
       | none => none)

/-- Comma-separated JSON array elements up to the closing bracket. -/
def parseElems : Nat → List Char → Option (List Json × List Char)
  | 0, _ => none
  | Nat.succ fuel, cs =>
    match parseValue fuel cs with
    | none => none
    | some (j, rest) =>
      match skipWs rest with
      | ',' :: rest2 =>
        (match parseElems fuel rest2 with
         | some (xs, rest3) => some (j :: xs, rest3)
         | none => none)
      | ']' :: rest2 => some ([j], rest2)
      | _ => none

/-- Comma-separated JSON object members up to the closing brace. -/
def parseMembers : Nat → List Char → Option (List (String × Json) × List Char)
  | 0, _ => none
  | Nat.succ fuel, cs =>
    match skipWs cs with
    | '"' :: rest =>
      (match parseStringBody rest "" with
       | none => none
       | some (k, rest2) =>
         match skipWs rest2 with
         | ':' :: rest3 =>
           (match parseValue fuel rest3 with
            | none => none
            | some (v, rest4) =>
              match skipWs rest4 with
              | ',' :: rest5 =>
                (match parseMembers fuel rest5 with
                 | some (ms, rest6) => some ((k, v) :: ms, rest6)
                 | none => none)
              | '\x7d' :: rest5 => some ([(k, v)], rest5)
              | _ => none)
         | _ => none)
    | _ => none

end

/-- `JSON.parse`: the whole input must be consumed (trailing whitespace
allowed); failure is `none` (the thrown `SyntaxError`). -/
def jsonParse (s : String) : Option Json :=
  match parseValue (2 * s.length + 4) s.data with
  | some (j, rest) => if skipWs rest = [] then some j else none
  | none => none

/-- Escaping applied by `JSON.stringify` to string contents. -/
def escapeJsonString (s : String) : String :=
  s.data.foldl
    (fun acc c =>
      if c = '"' then acc ++ "\\\""
      else if c = '\\' then acc ++ "\\\\"
      else if c = '\n' then acc ++ "\\n"
      else acc.push c) ""

mutual

/-- `JSON.stringify` on the embedded JSON values. -/
def Json.stringify : Json → String
  | Json.null => "null"
  | Json.bool true => "true"
  | Json.bool false => "false"
  | Json.num n => toString n
  | Json.str s => "\"" ++ escapeJsonString s ++ "\""
  | Json.arr xs => "[" ++ stringifyElems xs ++ "]"
  | Json.obj ms => "\x7b" ++ stringifyMembers ms ++ "\x7d"

/-- Array elements of `JSON.stringify`, comma separated. -/
def stringifyElems : List Json → String
  | [] => ""
  | [j] => Json.stringify j
  | j :: rest => Json.stringify j ++ "," ++ stringifyElems rest

/-- Object members of `JSON.stringify`, comma separated. -/
def stringifyMembers : List (String × Json) → String
  | [] => ""
  | [(k, v)] => "\"" ++ escapeJsonString k ++ "\":" ++ Json.stringify v
  | (k, v) :: rest =>
    "\"" ++ escapeJsonString k ++ "\":" ++ Json.stringify v ++ ","
      ++ stringifyMembers rest

end

/-- Value of a base64 alphabet character, `none` for everything else
(Node's decoder skips characters outside the alphabet). -/
def b64Val (c : Char) : Option Nat :=
  if 'A' ≤ c ∧ c ≤ 'Z' then some (c.toNat - 65)
  else if 'a' ≤ c ∧ c ≤ 'z' then some (c.toNat - 97 + 26)
  else if '0' ≤ c ∧ c ≤ '9' then some (c.toNat - 48 + 52)
  else if c = '+' then some 62
  else if c = '/' then some 63
  else none

/-- Groups of base64 sextets into bytes, Node style: a trailing group of
2 or 3 sextets yields 1 or 2 bytes, a lone trailing sextet is dropped. -/
def b64Bytes : List Nat → List Nat
  | a :: b :: c :: d :: rest =>
    (a * 4 + b / 16) :: ((b % 16) * 16 + c / 4) :: ((c % 4) * 64 + d)
      :: b64Bytes rest
  | [a, b] => [a * 4 + b / 16]
  | [a, b, c] => [a * 4 + b / 16, (b % 16) * 16 + c / 4]
  | _ => []

/-- `Buffer.from(s, "base64").toString()`: lenient, never fails; bytes are
read back as characters (ASCII payloads, which covers JSON bodies here). -/
def base64Decode (s : String) : String :=
  String.mk ((b64Bytes (s.data.filterMap b64Val)).map Char.ofNat)

/-- A validated JSON-RPC message (the union `JSONRPCRequest |
JSONRPCNotification | JSONRPCResponse | JSONRPCError` of the protocol
SDK): a Request carries method and id, a Notification only a method, a
Response or error Response only an id. -/
inductive JSONRPCMessage where
  | request (id : Int) (method : String) (params : Option Json)
  | notification (method : String) (params : Option Json)
  | response (id : Int) (result : Json)
  | errorResponse (id : Int) (code : Int) (message : String) (data : Option Json)

/-- Presence and value of the `method` field (`"method" in message`). -/
def methodField : JSONRPCMessage → Option String
  | JSONRPCMessage.request _ m _ => some m
  | JSONRPCMessage.notification m _ => some m
  | JSONRPCMessage.response _ _ => none
  | JSONRPCMessage.errorResponse _ _ _ _ => none

/-- Presence and value of the `id` field (`"id" in message`). -/
def idField : JSONRPCMessage → Option Int
  | JSONRPCMessage.request i _ _ => some i
  | JSONRPCMessage.notification _ _ => none
  | JSONRPCMessage.response i _ => some i
  | JSONRPCMessage.errorResponse i _ _ _ => some i

/-- `isRequestMessage`: `"method" in message && "id" in message`. -/
def isRequestMessage (m : JSONRPCMessage) : Bool :=
  (methodField m).isSome && (idField m).isSome

/-- `isResponseMessage`: `"id" in message` (note: presence of an id only —
a Request, which also carries an id, satisfies this predicate). -/
def isResponseMessage (m : JSONRPCMessage) : Bool :=
  (idField m).isSome

/-- The id of a message known to carry one (`message.id` after the type
guard has narrowed the union). -/
def reqIdD (m : JSONRPCMessage) : Int := (idField m).getD 0

/-- First value bound to a key in a JSON object. -/
def jLookup : List (String × Json) → String → Option Json
  | [], _ => none
  | (k, v) :: rest, key => if k = key then some v else jLookup rest key

/-- Modelled from the protocol SDK's `JSONRPCMessageSchema` (a zod union
of the request / notification / response / error shapes, each requiring
`jsonrpc: "2.0"`); the SDK package is an external dependency, not part of
`src/`. -/
def validateMessage (j : Json) : Option JSONRPCMessage :=
  match j with
  | Json.obj ms =>
    (match jLookup ms "jsonrpc" with
     | some (Json.str ver) =>
       if ver = "2.0" then
         match jLookup ms "method", jLookup ms "id" with
         | some (Json.str m), some (Json.num i) =>
           some (JSONRPCMessage.request i m (jLookup ms "params"))
         | some (Json.str m), none =>
           some (JSONRPCMessage.notification m (jLookup ms "params"))
         | none, some (Json.num i) =>
           (match jLookup ms "result" with
            | some r => some (JSONRPCMessage.response i r)
            | none =>
              match jLookup ms "error" with
              | some (Json.obj ems) =>
                (match jLookup ems "code", jLookup ems "message" with
                 | some (Json.num c), some (Json.str emsg) =>
                   some (JSONRPCMessage.errorResponse i c emsg (jLookup ems "data"))
                 | _, _ => none)
              | _ => none)
         | _, _ => none
       else none
     | _ => none)
  | _ => none

/-- `z.array(JSONRPCMessageSchema)`: every element must validate,
otherwise the whole batch is rejected. -/
def validateAll : List Json → Option (List JSONRPCMessage)
  | [] => some []
  | j :: rest =>
    match validateMessage j with
    | none => none
    | some m =>
      match validateAll rest with
      | none => none
      | some ms => some (m :: ms)

/-- `Array.isArray(parsed) ? parsed : [parsed]`. -/
def normalizeBody (j : Json) : List Json :=
  match j with
  | Json.arr xs => xs
  | _ => [j]

/-- The body-processing pipeline of the bridge's before-phase: optional
base64 decoding, `JSON.parse`, array normalization, schema validation;
`none` is the caught exception that becomes a 422. -/
def parseBody (isBase64Encoded : Bool) (body : String) :
    Option (List JSONRPCMessage) :=
  let decodedBody := if isBase64Encoded then base64Decode body else body
  match jsonParse decodedBody with
  | none => none
  | some j => validateAll (normalizeBody j)

/-- Serialization of a message back to JSON (`JSON.stringify` argument). -/
def msgToJson : JSONRPCMessage → Json
  | JSONRPCMessage.request i m p =>
    Json.obj ([("jsonrpc", Json.str "2.0"), ("method", Json.str m),
      ("id", Json.num i)] ++
      (match p with | some pj => [("params", pj)] | none => []))
  | JSONRPCMessage.notification m p =>
    Json.obj ([("jsonrpc", Json.str "2.0"), ("method", Json.str m)] ++
      (match p with | some pj => [("params", pj)] | none => []))
  | JSONRPCMessage.response i r =>
    Json.obj [("jsonrpc", Json.str "2.0"), ("id", Json.num i), ("result", r)]
  | JSONRPCMessage.errorResponse i c emsg d =>
    Json.obj [("jsonrpc", Json.str "2.0"), ("id", Json.num i),
      ("error", Json.obj ([("code", Json.num c), ("message", Json.str emsg)] ++
        (match d with | some dj => [("data", dj)] | none => [])))]

/-- State of one `HttpServerTransport` instance: the `_started` flag, the
`_pendingRequests` map (id to the index of the promise it resolves) and
the promise slots of the current invocation (`none` = still pending). -/
structure TransportState where
  started : Bool
  pending : Int → Option Nat
  slots : Nat → Option JSONRPCMessage

/-- `start()`: throws (message returned on the left) if already started,
otherwise sets the flag. -/
def start (s : TransportState) : Option String × TransportState :=
  if s.started then (some "HttpServerTransport already started", s)
  else (none, { s with started := true })

/-- `close()`: a no-op. -/
def close (s : TransportState) : TransportState := s

/-- `send(message)`: if `isResponseMessage` holds (the message carries an
id) and the id has a pending entry, resolve that entry's promise slot
with the message and delete the entry; otherwise do nothing. -/
def send (s : TransportState) (m : JSONRPCMessage) : TransportState :=
  if isResponseMessage m then
    match s.pending (reqIdD m) with
    | some slot =>
      { s with
        slots := fun j => if j = slot then some m else s.slots j,
        pending := fun k => if k = reqIdD m then none else s.pending k }
    | none => s
  else s

/-- A sequence of engine `send` calls, in delivery order. -/
def sendAll (s : TransportState) (ms : List JSONRPCMessage) : TransportState :=
  ms.foldl send s

/-- `_startFreshSession()`: `this._pendingRequests.clear()`. -/
def startFreshSession (s : TransportState) : TransportState :=
  { s with pending := fun _ => none }

/-- Observable events of the synchronous prefix of
`handleJSONRPCMessages`: the table clear, each `onmessage` dispatch, and
each pending-entry creation (`_pendingRequests.set`). -/
inductive TransportEvent where
  | clearTable
  | onMessage (m : JSONRPCMessage)
  | createEntry (id : Int) (slot : Nat)

/-- Extracts the message of an `onMessage` event. -/
def onMessageOf : TransportEvent → Option JSONRPCMessage
  | TransportEvent.onMessage m => some m
  | _ => none

/-- Result of the synchronous prefix of `handleJSONRPCMessages`:
either the early `return` (no Requests: "no reply") or suspension on
`Promise.all` with the filtered Request subset. -/
inductive SetupOutcome where
  | noReply
  | awaiting (requests : List JSONRPCMessage)

/-- `_pendingRequests.set(request.id, resolver-of-slot i)` executed for
each Request in order, starting at slot index `i0` (later `set` calls on
an equal id overwrite the earlier entry, as for a JS `Map`). -/
def buildPending : List JSONRPCMessage → Nat → (Int → Option Nat) →
    Int → Option Nat
  | [], _, p => p
  | r :: rest, i, p =>
    buildPending rest (i + 1) (fun k => if k = reqIdD r then some i else p k)

/-- The synchronous prefix of `handleJSONRPCMessages(jsonRPCMessages)`:
clear the table, dispatch every message to `onmessage` in order, filter
the Request subset; if it is empty return immediately ("no reply"),
otherwise create one pending entry per Request (fresh promise slots) and
suspend on `Promise.all`. -/
def handleJSONRPCMessages (s : TransportState)
    (jsonRPCMessages : List JSONRPCMessage) :
    TransportState × List TransportEvent × SetupOutcome :=
  let cleared := startFreshSession s
  let dispatchEvents := jsonRPCMessages.map TransportEvent.onMessage
  let requestMessages := jsonRPCMessages.filter isRequestMessage
  if requestMessages.isEmpty then
    (cleared, TransportEvent.clearTable :: dispatchEvents, SetupOutcome.noReply)
  else
    ({ cleared with
        pending := buildPending requestMessages 0 (fun _ => none),
        slots := fun _ => none },
     TransportEvent.clearTable :: dispatchEvents ++
       requestMessages.enum.map (fun p => TransportEvent.createEntry (reqIdD p.2) p.1),
     SetupOutcome.awaiting requestMessages)

/-- Value of `handleJSONRPCMessages` once `Promise.all` settles: the
array of responses when more than one Request was awaited, else the
single response. -/
inductive HandleResult where
  | single (m : JSONRPCMessage)
  | batch (ms : List JSONRPCMessage)

/-- The values of promise slots `0 .. n-1`, in slot order, once all are
resolved (`Promise.all`); `none` while any slot is still pending. -/
def collectSlots (slots : Nat → Option JSONRPCMessage) :
    Nat → Option (List JSONRPCMessage)
  | 0 => some []
  | n + 1 =>
    match collectSlots slots n, slots n with
    | some l, some m => some (l ++ [m])
    | _, _ => none

/-- `responseMessages.length > 1 ? responseMessages : responseMessages[0]`,
applied to the settled `Promise.all` values; `none` while unresolved. -/
def finishBatch (requests : List JSONRPCMessage)
    (slots : Nat → Option JSONRPCMessage) : Option HandleResult :=
  match collectSlots slots requests.length with
  | none => none
  | some [] => none
  | some [m] => some (HandleResult.single m)
  | some ms => some (HandleResult.batch ms)

/-- An HTTP error thrown by the before-phase
(`createHttpError(status, body)`). -/
structure HttpErrorT where
  statusCode : Nat
  message : String

/-- `createMcpError(httpStatusCode, mcpError)`: wraps the JSON-RPC error
envelope `{jsonrpc: "2.0", error: mcpError, id: 123}` (serialized) in an
HTTP error with the given status. -/
def createMcpError (httpStatusCode : Nat) (code : Int) (message : String) :
    HttpErrorT :=
  { statusCode := httpStatusCode,
    message := Json.stringify (Json.obj
      [("jsonrpc", Json.str "2.0"),
       ("error", Json.obj [("code", Json.num code), ("message", Json.str message)]),
       ("id", Json.num 123)]) }

/-- Exact-key lookup in the event's `headers` object. -/
def hLookup (headers : List (String × String)) (k : String) : Option String :=
  (headers.find? (fun p => p.1 = k)).map (fun p => p.2)

/-- `headers?.[k1] ?? headers?.[k2]`. -/
def firstHeader (headers : List (String × String)) (k1 k2 : String) :
    Option String :=
  match hLookup headers k1 with
  | some v => some v
  | none => hLookup headers k2

/-- `String.prototype.includes`: `pat` occurs contiguously in `s`. -/
def listPrefixOf : List Char → List Char → Bool
  | [], _ => true
  | _ :: _, [] => false
  | a :: as, b :: bs => a = b && listPrefixOf as bs

/-- Scanning helper for `strIncludes`. -/
def strIncludesAux (pat : List Char) : List Char → Bool
  | [] => listPrefixOf pat []
  | c :: rest => listPrefixOf pat (c :: rest) || strIncludesAux pat rest

/-- `s.includes(pat)`. -/
def strIncludes (s pat : String) : Bool := strIncludesAux pat.data s.data

/-- `v !== undefined && v.includes("application/json")` — the negation of
the rejection condition used for both negotiated headers. -/
def headerAccepts : Option String → Bool
  | none => false
  | some v => strIncludes v "application/json"

/-- The bridge's before-phase (`mcp(...).before`): negotiate `accept`
then `content-type` (each looked up under its two exact spellings), then
decode / parse / validate the body; an error result means the thrown
`createMcpError` and nothing stored in `context.jsonRPCMessages`. -/
def mcpBefore (headers : List (String × String)) (isBase64Encoded : Bool)
    (body : String) : Except HttpErrorT (List JSONRPCMessage) :=
  let contentTypeHeaderValue := firstHeader headers "content-type" "Content-Type"
  let acceptHeaderValue := firstHeader headers "accept" "Accept"
  if !(headerAccepts acceptHeaderValue) then
    Except.error (createMcpError 406 (-32000)
      "Not Acceptable: Client must accept application/json")
  else if !(headerAccepts contentTypeHeaderValue) then
    Except.error (createMcpError 415 (-32000)
      "Unsupported Media Type: Content-Type must be application/json")
  else
    match parseBody isBase64Encoded body with
    | some jsonRPCMessages => Except.ok jsonRPCMessages
    | none =>
      Except.error (createMcpError 422 (-32000)
        "Unprocessable Entity: Invalid or malformed JSON was provided")

/-- The HTTP response rendered by the bridge's after-phase. -/
structure HttpResponse where
  statusCode : Nat
  body : String

/-- Serialization of the adapter's settled result
(`JSON.stringify(responseMessages)`). -/
def stringifyHandleResult : HandleResult → String
  | HandleResult.single m => Json.stringify (msgToJson m)
  | HandleResult.batch ms => Json.stringify (Json.arr (ms.map msgToJson))

/-- The bridge's after-phase (`mcp(...).after`): "no reply" renders 202
with an empty body, a settled result renders 200 with the serialized
messages. -/
def renderAfter (result : Option HandleResult) : HttpResponse :=
  match result with
  | none => { statusCode := 202, body := "" }
  | some r => { statusCode := 200, body := stringifyHandleResult r }

/-! ### Generic lemmas about the pending-table construction -/

/-- Index of the LAST occurrence of the id `k` among the Requests `rs`
(the entry a JS `Map` retains after all the `set` calls). -/
def lastIdxOf (k : Int) : List JSONRPCMessage → Option Nat
  | [] => none
  | r :: rest =>
    match lastIdxOf k rest with
    | some j => some (j + 1)
    | none => if reqIdD r = k then some 0 else none

theorem lastIdxOf_none_iff (k : Int) (rs : List JSONRPCMessage) :
    lastIdxOf k rs = none ↔ k ∉ rs.map reqIdD := by
  induction rs with
  | nil => simp [lastIdxOf]
  | cons r rest ih =>
    constructor
    · intro h hmem
      simp only [lastIdxOf] at h
      cases hrest : lastIdxOf k rest with
      | some j => rw [hrest] at h; cases h
      | none =>
        rw [hrest] at h
        simp only [List.map_cons, List.mem_cons] at hmem
        cases hmem with
        | inl he => rw [if_pos he.symm] at h; cases h
        | inr hm => exact (ih.mp hrest) hm
    · intro h
      simp only [List.map_cons, List.mem_cons] at h
      push_neg at h
      simp only [lastIdxOf]
      rw [ih.mpr h.2]
      rw [if_neg (fun he => h.1 he.symm)]

theorem lastIdxOf_get (k : Int) (rs : List JSONRPCMessage) :
    ∀ j : Nat, lastIdxOf k rs = some j →
      ∃ r, rs.get? j = some r ∧ reqIdD r = k := by
  induction rs with
  | nil => intro j h; simp [lastIdxOf] at h
  | cons r rest ih =>
    intro j h
    simp only [lastIdxOf] at h
    cases hrest : lastIdxOf k rest with
    | some j2 =>
      rw [hrest] at h
      injection h with h
      obtain ⟨r2, hg, hid⟩ := ih j2 hrest
      exact ⟨r2, by rw [← h]; simpa using hg, hid⟩
    | none =>
      rw [hrest] at h
      by_cases hr : reqIdD r = k
      · rw [if_pos hr] at h
        injection h with h
        exact ⟨r, by rw [← h]; rfl, hr⟩
      · rw [if_neg hr] at h; cases h

theorem lastIdxOf_last (k : Int) (rs : List JSONRPCMessage) :
    ∀ j : Nat, lastIdxOf k rs = some j →
      ∀ j2 r2, j < j2 → rs.get? j2 = some r2 → reqIdD r2 ≠ k := by
  induction rs with
  | nil => intro j h; simp [lastIdxOf] at h
  | cons r rest ih =>
    intro j h j2 r2 hlt hg
    simp only [lastIdxOf] at h
    cases hrest : lastIdxOf k rest with
    | some jr =>
      rw [hrest] at h
      injection h with h
      cases j2 with
      | zero => omega
      | succ j2p =>
        exact ih jr hrest j2p r2 (by omega) (by simpa using hg)
    | none =>
      rw [hrest] at h
      by_cases hr : reqIdD r = k
      · rw [if_pos hr] at h
        injection h with h
        cases j2 with
        | zero => omega
        | succ j2p =>
          intro hk
          have hmem : r2 ∈ rest := List.get?_mem (by simpa using hg)
          exact ((lastIdxOf_none_iff k rest).mp hrest)
            (hk ▸ List.mem_map_of_mem reqIdD hmem)
      · rw [if_neg hr] at h; cases h

theorem lastIdxOf_of_nodup (k : Int) (rs : List JSONRPCMessage) :
    ∀ (j : Nat) (r : JSONRPCMessage), (rs.map reqIdD).Nodup →
      rs.get? j = some r → reqIdD r = k → lastIdxOf k rs = some j := by
  induction rs with
  | nil => intro j r _ hg; simp at hg
  | cons r0 rest ih =>
    intro j r hnd hg hid
    simp only [List.map_cons, List.nodup_cons] at hnd
    simp only [lastIdxOf]
    cases j with
    | zero =>
      simp only [List.get?_cons_zero] at hg
      injection hg with hg
      cases hrest : lastIdxOf k rest with
      | some jr =>
        exfalso
        obtain ⟨r2, hg2, hid2⟩ := lastIdxOf_get k rest jr hrest
        apply hnd.1
        have hmem : r2 ∈ rest := List.get?_mem hg2
        have : reqIdD r0 = k := by rw [hg]; exact hid
        rw [this, ← hid2]
        exact List.mem_map_of_mem reqIdD hmem
      | none =>
        have hr0 : reqIdD r0 = k := by rw [hg]; exact hid
        rw [if_pos hr0]
    | succ jp =>
      have hg2 : rest.get? jp = some r := by simpa using hg
      rw [ih jp r hnd.2 hg2 hid]

theorem buildPending_lookup (rs : List JSONRPCMessage) :
    ∀ (i : Nat) (p : Int → Option Nat) (k : Int),
    buildPending rs i p k =
      match lastIdxOf k rs with
      | some j => some (i + j)
      | none => p k := by
  induction rs with
  | nil => intro i p k; rfl
  | cons r rest ih =>
    intro i p k
    simp only [buildPending, lastIdxOf]
    rw [ih]
    cases hrest : lastIdxOf k rest with
    | some j => exact congrArg some (by omega)
    | none =>
      by_cases hr : k = reqIdD r
      · simp [hr]
      · simp only [if_neg hr]
        rw [if_neg (fun h => hr h.symm)]

/-! ### Generic lemmas about `send` -/

theorem send_eq_or (s : TransportState) (m : JSONRPCMessage) :
    send s m = s ∨
    ∃ slot, idField m = some (reqIdD m) ∧ s.pending (reqIdD m) = some slot ∧
      (∀ k, (send s m).pending k = if k = reqIdD m then none else s.pending k) ∧
      (∀ j, (send s m).slots j = if j = slot then some m else s.slots j) ∧
      (send s m).started = s.started := by
  by_cases hresp : isResponseMessage m
  · cases hp : s.pending (reqIdD m) with
    | none =>
      left
      unfold send
      rw [if_pos hresp, hp]
    | some slot =>
      right
      have hid : idField m = some (reqIdD m) := by
        unfold isResponseMessage at hresp
        cases hidm : idField m with
        | none => rw [hidm] at hresp; simp at hresp
        | some i => simp [reqIdD, hidm]
      have hsend : send s m = { s with
          slots := fun j => if j = slot then some m else s.slots j,
          pending := fun k => if k = reqIdD m then none else s.pending k } := by
        unfold send
        rw [if_pos hresp, hp]
      exact ⟨slot, hid, hp ▸ rfl, fun k => by rw [hsend], fun j => by rw [hsend],
        by rw [hsend]⟩
  · left
    unfold send
    rw [if_neg hresp]

theorem send_resolves (s : TransportState) (m : JSONRPCMessage) (slot : Nat)
    (hresp : isResponseMessage m = true) (hp : s.pending (reqIdD m) = some slot) :
    (∀ k, (send s m).pending k = if k = reqIdD m then none else s.pending k) ∧
    (∀ j, (send s m).slots j = if j = slot then some m else s.slots j) := by
  unfold send
  rw [if_pos hresp, hp]
  exact ⟨fun _ => rfl, fun _ => rfl⟩

theorem request_idField (m : JSONRPCMessage) (h : isRequestMessage m = true) :
    idField m = some (reqIdD m) := by
  simp only [isRequestMessage, Bool.and_eq_true] at h
  cases hid : idField m with
  | none => rw [hid] at h; simp at h
  | some i => simp [reqIdD, hid]

theorem response_idField (m : JSONRPCMessage) (h : isResponseMessage m = true) :
    idField m = some (reqIdD m) := by
  unfold isResponseMessage at h
  cases hid : idField m with
  | none => rw [hid] at h; simp at h
  | some i => simp [reqIdD, hid]

theorem mem_map_some_iff (k : Int) (l : List Int) :
    some k ∈ l.map some ↔ k ∈ l := by simp

/-- Invariant tying a state reachable during the awaiting phase to the
Request subset `rs` and the multiset `delivered` of messages the engine
has passed to `send` so far: every pending entry points at the slot of
the Request carrying its id and that slot is unfilled; every unfilled
slot still has its entry; every filled slot holds a delivered message
whose id is the slot's Request id. -/
structure BatchInv (rs delivered : List JSONRPCMessage)
    (s : TransportState) : Prop where
  psound : ∀ k j, s.pending k = some j →
    ∃ r, rs.get? j = some r ∧ reqIdD r = k ∧ s.slots j = none
  pcomplete : ∀ j r, rs.get? j = some r → s.slots j = none →
    s.pending (reqIdD r) = some j
  ssound : ∀ j m, s.slots j = some m →
    (∃ r, rs.get? j = some r ∧ idField m = some (reqIdD r)) ∧ m ∈ delivered

theorem inv_send (rs d : List JSONRPCMessage) (s : TransportState)
    (m : JSONRPCMessage) (h : BatchInv rs d s) :
    BatchInv rs (d ++ [m]) (send s m) := by
  rcases send_eq_or s m with heq | ⟨slot, hid, hp, hpend, hslots, _⟩
  · rw [heq]
    exact ⟨h.psound, h.pcomplete, fun j mm hs =>
      ⟨(h.ssound j mm hs).1, List.mem_append_left _ (h.ssound j mm hs).2⟩⟩
  · obtain ⟨rslot, hgslot, hidslot, hslotnone⟩ := h.psound (reqIdD m) slot hp
    constructor
    · intro k j hkj
      rw [hpend k] at hkj
      by_cases hk : k = reqIdD m
      · rw [if_pos hk] at hkj; cases hkj
      · rw [if_neg hk] at hkj
        obtain ⟨r, hg, hrid, hsl⟩ := h.psound k j hkj
        refine ⟨r, hg, hrid, ?_⟩
        rw [hslots j]
        by_cases hj : j = slot
        · subst hj
          rw [hgslot] at hg
          injection hg with hg
          exact absurd (by rw [← hrid, ← hg, hidslot]) hk
        · rw [if_neg hj]; exact hsl
    · intro j r hg hsl
      rw [hslots j] at hsl
      by_cases hj : j = slot
      · rw [if_pos hj] at hsl; cases hsl
      · rw [if_neg hj] at hsl
        have hpr := h.pcomplete j r hg hsl
        rw [hpend (reqIdD r)]
        by_cases hk : reqIdD r = reqIdD m
        · exfalso
          rw [hk] at hpr
          rw [hpr] at hp
          injection hp with hp
          exact hj hp
        · rw [if_neg hk]; exact hpr
    · intro j mm hs
      rw [hslots j] at hs
      by_cases hj : j = slot
      · rw [if_pos hj] at hs
        injection hs with hs
        subst hj
        refine ⟨⟨rslot, hgslot, ?_⟩, ?_⟩
        · rw [← hs, hid, hidslot]
        · rw [← hs]
          exact List.mem_append_right _ (List.mem_singleton_self m)
      · rw [if_neg hj] at hs
        obtain ⟨he, hmem⟩ := h.ssound j mm hs
        exact ⟨he, List.mem_append_left _ hmem⟩

theorem inv_init (rs : List JSONRPCMessage) (b : Bool)
    (hnd : (rs.map reqIdD).Nodup) :
    BatchInv rs []
      { started := b, pending := buildPending rs 0 (fun _ => none),
        slots := fun _ => none } := by
  constructor
  · intro k j hkj
    simp only at hkj
    rw [buildPending_lookup] at hkj
    cases hl : lastIdxOf k rs with
    | none => rw [hl] at hkj; cases hkj
    | some j2 =>
      rw [hl] at hkj
      injection hkj with hkj
      obtain ⟨r, hg, hid⟩ := lastIdxOf_get k rs j2 hl
      have hj : j = j2 := by omega
      exact ⟨r, by rw [hj]; exact hg, hid, rfl⟩
  · intro j r hg _
    simp only
    rw [buildPending_lookup,
      lastIdxOf_of_nodup (reqIdD r) rs j r hnd hg rfl]
    exact congrArg some (by omega)
  · intro j m hs
    simp at hs

theorem drain (rs : List JSONRPCMessage) :
    ∀ (resps d : List JSONRPCMessage) (s : TransportState),
      BatchInv rs d s →
      (resps.map reqIdD).Nodup →
      (∀ m ∈ resps, isResponseMessage m = true) →
      (∀ k, (s.pending k).isSome = true ↔ k ∈ resps.map reqIdD) →
      (∀ k, (sendAll s resps).pending k = none) ∧
        BatchInv rs (d ++ resps) (sendAll s resps) := by
  intro resps
  induction resps with
  | nil =>
    intro d s hinv _ _ hkeys
    refine ⟨?_, by simpa using hinv⟩
    intro k
    have hk := hkeys k
    simp only [List.map_nil, List.not_mem_nil, iff_false] at hk
    cases hp : s.pending k with
    | none => simpa [sendAll]
    | some j => rw [hp] at hk; simp at hk
  | cons m rest ih =>
    intro d s hinv hnd hresp hkeys
    have hndc : (reqIdD m ∉ rest.map reqIdD) ∧ (rest.map reqIdD).Nodup := by
      rw [List.map_cons, List.nodup_cons] at hnd
      exact hnd
    have hi : (s.pending (reqIdD m)).isSome = true :=
      (hkeys (reqIdD m)).mpr (by simp)
    cases hp : s.pending (reqIdD m) with
    | none => rw [hp] at hi; simp at hi
    | some slot =>
      have hres := send_resolves s m slot (hresp m (by simp)) hp
      have hinv2 : BatchInv rs (d ++ [m]) (send s m) := inv_send rs d s m hinv
      have hkeys2 : ∀ k, ((send s m).pending k).isSome = true ↔
          k ∈ rest.map reqIdD := by
        intro k
        rw [hres.1 k]
        by_cases hk : k = reqIdD m
        · rw [if_pos hk]
          simp only [Option.isSome_none, Bool.false_eq_true, false_iff]
          intro hmem
          exact hndc.1 (hk ▸ hmem)
        · rw [if_neg hk]
          rw [hkeys k]
          simp [hk]
      have hrest2 : ∀ m2 ∈ rest, isResponseMessage m2 = true :=
        fun m2 hm2 => hresp m2 (by simp [hm2])
      have hmain := ih (d ++ [m]) (send s m) hinv2 hndc.2 hrest2 hkeys2
      refine ⟨fun k => hmain.1 k, ?_⟩
      have heq : d ++ m :: rest = (d ++ [m]) ++ rest := by simp
      rw [heq]
      exact hmain.2

theorem collectSlots_of_filled (slots : Nat → Option JSONRPCMessage) :
    ∀ n : Nat, (∀ j, j < n → (slots j).isSome = true) →
      ∃ l, collectSlots slots n = some l ∧ l.length = n ∧
        ∀ j, j < n → l.get? j = slots j := by
  intro n
  induction n with
  | zero => intro _; exact ⟨[], rfl, rfl, fun j hj => by omega⟩
  | succ n ih =>
    intro hfill
    obtain ⟨l, hc, hlen, hget⟩ := ih (fun j hj => hfill j (by omega))
    have hn := hfill n (by omega)
    cases hs : slots n with
    | none => rw [hs] at hn; cases hn
    | some m =>
      refine ⟨l ++ [m], ?_, by simp [hlen], ?_⟩
      · simp only [collectSlots]
        rw [hc, hs]
      · intro j hj
        by_cases hjn : j < n
        · rw [List.get?_append (by omega)]
          exact hget j hjn
        · have hjeq : j = n := by omega
          subst hjeq
          rw [hs, ← hlen]
          exact List.get?_concat_length l m

theorem handleJSONRPCMessages_state (s : TransportState)
    (msgs : List JSONRPCMessage)
    (hne : (msgs.filter isRequestMessage).isEmpty = false) :
    (handleJSONRPCMessages s msgs).1 =
      { started := s.started,
        pending := buildPending (msgs.filter isRequestMessage) 0 (fun _ => none),
        slots := fun _ => none } := by
  unfold handleJSONRPCMessages startFreshSession
  simp only [hne, Bool.false_eq_true, if_false]

theorem handleJSONRPCMessages_noReply_eq (s : TransportState)
    (msgs : List JSONRPCMessage)
    (he : (msgs.filter isRequestMessage).isEmpty = true) :
    handleJSONRPCMessages s msgs =
      ({ s with pending := fun _ => none },
       TransportEvent.clearTable :: msgs.map TransportEvent.onMessage,
       SetupOutcome.noReply) := by
  unfold handleJSONRPCMessages startFreshSession
  simp only [he, if_true]

theorem buildPending_isSome_iff (rs : List JSONRPCMessage) (k : Int) :
    (buildPending rs 0 (fun _ => none) k).isSome = true ↔
      k ∈ rs.map reqIdD := by
  rw [buildPending_lookup]
  cases hl : lastIdxOf k rs with
  | none => simp [(lastIdxOf_none_iff k rs).mp hl]
  | some j =>
    simp only [Option.isSome_some, true_iff]
    obtain ⟨r, hg, hid⟩ := lastIdxOf_get k rs j hl
    exact hid ▸ List.mem_map_of_mem reqIdD (List.get?_mem hg)

theorem finishBatch_eq_single (requests : List JSONRPCMessage)
    (slots : Nat → Option JSONRPCMessage) (m : JSONRPCMessage)
    (hc : collectSlots slots requests.length = some [m]) :
    finishBatch requests slots = some (HandleResult.single m) := by
  unfold finishBatch
  rw [hc]

theorem finishBatch_eq_batch (requests : List JSONRPCMessage)
    (slots : Nat → Option JSONRPCMessage) (l : List JSONRPCMessage)
    (hc : collectSlots slots requests.length = some l) (hlen : 1 < l.length) :
    finishBatch requests slots = some (HandleResult.batch l) := by
  unfold finishBatch
  rw [hc]
  match l, hlen with
  | a :: b :: tl, _ => rfl

theorem hLookup_eq_none (headers : List (String × String)) (k : String)
    (h : ∀ p ∈ headers, p.1 ≠ k) : hLookup headers k = none := by
  unfold hLookup
  rw [List.find?_eq_none.mpr]
  · rfl
  · intro p hp
    simp only [decide_eq_true_eq]
    exact h p hp

theorem mcpBefore_406 (headers : List (String × String)) (isB64 : Bool)
    (body : String)
    (h : headerAccepts (firstHeader headers "accept" "Accept") = false) :
    mcpBefore headers isB64 body = Except.error (createMcpError 406 (-32000)
      "Not Acceptable: Client must accept application/json") := by
  simp only [mcpBefore]
  rw [h]
  rfl

theorem mcpBefore_415 (headers : List (String × String)) (isB64 : Bool)
    (body : String)
    (h1 : headerAccepts (firstHeader headers "accept" "Accept") = true)
    (h2 : headerAccepts (firstHeader headers "content-type" "Content-Type")
      = false) :
    mcpBefore headers isB64 body = Except.error (createMcpError 415 (-32000)
      "Unsupported Media Type: Content-Type must be application/json") := by
  simp only [mcpBefore]
  rw [h1, h2]
  rfl

theorem mcpBefore_422 (headers : List (String × String)) (isB64 : Bool)
    (body : String)
    (h1 : headerAccepts (firstHeader headers "accept" "Accept") = true)
    (h2 : headerAccepts (firstHeader headers "content-type" "Content-Type")
      = true)
    (hpb : parseBody isB64 body = none) :
    mcpBefore headers isB64 body = Except.error (createMcpError 422 (-32000)
      "Unprocessable Entity: Invalid or malformed JSON was provided") := by
  simp only [mcpBefore]
  rw [h1, h2, hpb]
  rfl

theorem mcpBefore_ok (headers : List (String × String)) (isB64 : Bool)
    (body : String) (msgs : List JSONRPCMessage)
    (h1 : headerAccepts (firstHeader headers "accept" "Accept") = true)
    (h2 : headerAccepts (firstHeader headers "content-type" "Content-Type")
      = true)
    (hpb : parseBody isB64 body = some msgs) :
    mcpBefore headers isB64 body = Except.ok msgs := by
  simp only [mcpBefore]
  rw [h1, h2, hpb]
  rfl

theorem validateAll_none_of_mem (x : Json) (xs : List Json) (hx : x ∈ xs)
    (hv : validateMessage x = none) : validateAll xs = none := by
  induction xs with
  | nil => cases hx
  | cons y ys ih =>
    rcases List.mem_cons.mp hx with h | h
    · subst h
      unfold validateAll
      rw [hv]
    · unfold validateAll
      cases hvy : validateMessage y with
      | none => rfl
      | some m => rw [ih h]

theorem sendAll_avoids_slot (i : Nat) :
    ∀ (resps : List JSONRPCMessage) (st : TransportState),
      st.slots i = none → (∀ k, st.pending k ≠ some i) →
      (sendAll st resps).slots i = none ∧
        (∀ k, (sendAll st resps).pending k ≠ some i) := by
  intro resps
  induction resps with
  | nil => intro st h1 h2; exact ⟨h1, h2⟩
  | cons m rest ih =>
    intro st h1 h2
    have hstep : (send st m).slots i = none ∧
        (∀ k, (send st m).pending k ≠ some i) := by
      rcases send_eq_or st m with heq | ⟨slot, _, hp, hpend, hslots, _⟩
      · rw [heq]; exact ⟨h1, h2⟩
      · have hslot : slot ≠ i := fun hsi => h2 (reqIdD m) (hsi ▸ hp)
        constructor
        · rw [hslots i, if_neg (fun hi => hslot hi.symm)]
          exact h1
        · intro k
          rw [hpend k]
          by_cases hk : k = reqIdD m
          · rw [if_pos hk]; exact fun hc => by cases hc
          · rw [if_neg hk]; exact h2 k
    exact ih (send st m) hstep.1 hstep.2

/-! ### Claim theorems -/

/-- C1: for a batch whose Request subset (messages with both a method and
an id) has N ≥ 1 elements with pairwise distinct ids, once a Response
has been delivered via `send` for each pending id — in ANY delivery
order — the suspended `handleJSONRPCMessages` call settles: for N = 1 to
the single Response whose id equals the lone Request's id, for N > 1 to
a sequence of length N whose i-th element's id equals the i-th input
Request's id (original request order). Every output element is one of
the delivered `send` messages, so Notification and Response-shaped input
messages never appear in the output. -/
theorem handleJSONRPCMessages_request_order
    (s : TransportState) (msgs resps : List JSONRPCMessage)
    (hne : 0 < (msgs.filter isRequestMessage).length)
    (hnodup : ((msgs.filter isRequestMessage).map reqIdD).Nodup)
    (hresp : ∀ m ∈ resps, isResponseMessage m = true)
    (hperm : (resps.map idField).Perm
      ((msgs.filter isRequestMessage).map idField)) :
    ((msgs.filter isRequestMessage).length = 1 →
      ∃ m r0,
        finishBatch (msgs.filter isRequestMessage)
            (sendAll (handleJSONRPCMessages s msgs).1 resps).slots
          = some (HandleResult.single m) ∧
        (msgs.filter isRequestMessage).get? 0 = some r0 ∧
        idField m = idField r0 ∧ m ∈ resps) ∧
    (1 < (msgs.filter isRequestMessage).length →
      ∃ outs,
        finishBatch (msgs.filter isRequestMessage)
            (sendAll (handleJSONRPCMessages s msgs).1 resps).slots
          = some (HandleResult.batch outs) ∧
        outs.length = (msgs.filter isRequestMessage).length ∧
        (∀ i ri mi, (msgs.filter isRequestMessage).get? i = some ri →
          outs.get? i = some mi → idField mi = idField ri) ∧
        (∀ m ∈ outs, m ∈ resps)) := by
  set rs := msgs.filter isRequestMessage with hrsdef
  have hreq : ∀ r ∈ rs, isRequestMessage r = true :=
    fun r hr => (List.mem_filter.mp hr).2
  have hmap_rs : rs.map idField = (rs.map reqIdD).map some := by
    rw [List.map_map]
    exact List.map_congr_left fun r hr => request_idField r (hreq r hr)
  have hmap_resps : resps.map idField = (resps.map reqIdD).map some := by
    rw [List.map_map]
    exact List.map_congr_left fun m hm => response_idField m (hresp m hm)
  have hnd_rs_ids : (rs.map idField).Nodup := by
    rw [hmap_rs]
    exact hnodup.map (Option.some_injective Int)
  have hnd_resps : (resps.map reqIdD).Nodup := by
    apply List.Nodup.of_map some
    rw [← hmap_resps]
    exact hperm.nodup_iff.mpr hnd_rs_ids
  have hneL : rs.isEmpty = false := by
    cases hrs2 : rs with
    | nil => rw [hrs2] at hne; simp at hne
    | cons a l => rfl
  have hstate := handleJSONRPCMessages_state s msgs hneL
  rw [← hrsdef] at hstate
  have hinv0 : BatchInv rs [] ((handleJSONRPCMessages s msgs).1) := by
    rw [hstate]
    exact inv_init rs s.started hnodup
  have hkeys0 : ∀ k, (((handleJSONRPCMessages s msgs).1).pending k).isSome = true
      ↔ k ∈ resps.map reqIdD := by
    intro k
    rw [hstate]
    simp only
    rw [buildPending_isSome_iff, ← mem_map_some_iff, ← hmap_rs,
      ← hperm.mem_iff, hmap_resps, mem_map_some_iff]
  obtain ⟨hpnone, hinvF⟩ :=
    drain rs resps [] ((handleJSONRPCMessages s msgs).1) hinv0 hnd_resps hresp hkeys0
  rw [List.nil_append] at hinvF
  have hfilled : ∀ j, j < rs.length →
      ((sendAll (handleJSONRPCMessages s msgs).1 resps).slots j).isSome = true := by
    intro j hj
    obtain ⟨r, hg⟩ : ∃ r, rs.get? j = some r := by
      cases hgg : rs.get? j with
      | none => rw [List.get?_eq_none] at hgg; omega
      | some r => exact ⟨r, rfl⟩
    cases hsj : (sendAll (handleJSONRPCMessages s msgs).1 resps).slots j with
    | none =>
      have hcj := hinvF.pcomplete j r hg hsj
      rw [hpnone (reqIdD r)] at hcj
      cases hcj
    | some m => rfl
  obtain ⟨l, hc, hlen, hget⟩ := collectSlots_of_filled _ rs.length hfilled
  constructor
  · intro h1
    obtain ⟨m, hlm⟩ := List.length_eq_one.mp (by rw [hlen, h1] : l.length = 1)
    subst hlm
    have hfin := finishBatch_eq_single rs _ m hc
    have hs0 : (sendAll (handleJSONRPCMessages s msgs).1 resps).slots 0 = some m := by
      have hg0 := hget 0 (by omega)
      simpa using hg0.symm
    obtain ⟨⟨r0, hg0, hid0⟩, hmem⟩ := hinvF.ssound 0 m hs0
    refine ⟨m, r0, hfin, hg0, ?_, hmem⟩
    rw [hid0, request_idField r0 (hreq r0 (List.get?_mem hg0))]
  · intro h2
    have hlen2 : 1 < l.length := by rw [hlen]; exact h2
    have hfin := finishBatch_eq_batch rs _ l hc hlen2
    refine ⟨l, hfin, hlen, ?_, ?_⟩
    · intro i ri mi hgi hli
      have hilt : i < rs.length := by
        obtain ⟨hlt, _⟩ := List.get?_eq_some.mp hgi
        exact hlt
      obtain ⟨⟨r', hg', hid'⟩, _⟩ :=
        hinvF.ssound i mi ((hget i hilt).symm.trans hli)
      rw [hg'] at hgi
      injection hgi with hgi
      rw [← hgi, hid', request_idField r' (hreq r' (List.get?_mem hg'))]
    · intro m hm
      obtain ⟨i, hgi⟩ := List.mem_iff_get?.mp hm
      have hilt : i < l.length := (List.get?_eq_some.mp hgi).1
      have hsl := (hget i (by omega)).symm.trans hgi
      exact (hinvF.ssound i m hsl).2

/-- Witness for C1: a two-Request batch (a Notification interleaved)
whose Responses arrive in REVERSED order still settles to the batch
ordered by the original request order. -/
theorem handleJSONRPCMessages_request_order_witness :
    (0 < (([JSONRPCMessage.request 1 "a" none,
            JSONRPCMessage.notification "ping" none,
            JSONRPCMessage.request 2 "b" none]).filter isRequestMessage).length) ∧
    (1 < (([JSONRPCMessage.request 1 "a" none,
            JSONRPCMessage.notification "ping" none,
            JSONRPCMessage.request 2 "b" none]).filter isRequestMessage).length →
      ∃ outs,
        finishBatch (([JSONRPCMessage.request 1 "a" none,
            JSONRPCMessage.notification "ping" none,
            JSONRPCMessage.request 2 "b" none]).filter isRequestMessage)
            (sendAll (handleJSONRPCMessages
              { started := true, pending := fun _ => none, slots := fun _ => none }
              [JSONRPCMessage.request 1 "a" none,
               JSONRPCMessage.notification "ping" none,
               JSONRPCMessage.request 2 "b" none]).1
              [JSONRPCMessage.response 2 Json.null,
               JSONRPCMessage.response 1 Json.null]).slots
          = some (HandleResult.batch outs) ∧
        outs.length = (([JSONRPCMessage.request 1 "a" none,
            JSONRPCMessage.notification "ping" none,
            JSONRPCMessage.request 2 "b" none]).filter isRequestMessage).length ∧
        (∀ i ri mi,
          (([JSONRPCMessage.request 1 "a" none,
             JSONRPCMessage.notification "ping" none,
             JSONRPCMessage.request 2 "b" none]).filter isRequestMessage).get? i
              = some ri →
          outs.get? i = some mi → idField mi = idField ri) ∧
        (∀ m ∈ outs, m ∈ [JSONRPCMessage.response 2 Json.null,
                          JSONRPCMessage.response 1 Json.null])) :=
  ⟨by decide,
   (handleJSONRPCMessages_request_order
      { started := true, pending := fun _ => none, slots := fun _ => none }
      [JSONRPCMessage.request 1 "a" none,
       JSONRPCMessage.notification "ping" none,
       JSONRPCMessage.request 2 "b" none]
      [JSONRPCMessage.response 2 Json.null, JSONRPCMessage.response 1 Json.null]
      (by decide) (by decide) (by decide) (by decide)).2⟩

/-- A transport state with one pending entry (id 1 awaiting slot 0),
used to exhibit the behaviour of `send` on id-bearing messages. -/
def c2State : TransportState :=
  { started := true,
    pending := fun k => if k = 1 then some 0 else none,
    slots := fun _ => none }

/-- C2 counterexample: an engine-initiated Request (it carries both a
method and an id, so it is NOT a Response) whose id matches a pending
entry is NOT dropped by `send`: it resolves the entry — the slot is
filled with the Request and the entry is removed, because
`isResponseMessage` tests only for the presence of an id. -/
theorem send_request_resolves_counterexample :
    isRequestMessage (JSONRPCMessage.request 1 "ping" none) = true ∧
    c2State.pending 1 = some 0 ∧
    c2State.slots 0 = none ∧
    (send c2State (JSONRPCMessage.request 1 "ping" none)).slots 0
      = some (JSONRPCMessage.request 1 "ping" none) ∧
    (send c2State (JSONRPCMessage.request 1 "ping" none)).pending 1 = none := by
  refine ⟨rfl, ?_, rfl, ?_, ?_⟩ <;> rfl

/-- C2 amended: `send` silently drops exactly the messages WITHOUT an id
(they never resolve any entry); any message CARRYING an id — including
an engine-initiated Request — whose id matches a pending entry resolves
that entry and removes it. -/
theorem send_drops_only_idless (st : TransportState) (m : JSONRPCMessage) :
    (idField m = none → send st m = st) ∧
    (∀ i slot, idField m = some i → st.pending i = some slot →
      (send st m).slots slot = some m ∧ (send st m).pending i = none) := by
  constructor
  · intro hid
    unfold send
    rw [if_neg]
    unfold isResponseMessage
    rw [hid]
    simp
  · intro i slot hid hp
    have hresp : isResponseMessage m = true := by
      unfold isResponseMessage
      rw [hid]
      rfl
    have hrid : reqIdD m = i := by
      unfold reqIdD
      rw [hid]
      rfl
    obtain ⟨hpend, hslots⟩ := send_resolves st m slot hresp (by rw [hrid]; exact hp)
    constructor
    · rw [hslots slot, if_pos rfl]
    · rw [hpend i, if_pos hrid.symm]

/-- Witness for the amended C2: a Notification (no id) is dropped, while
a Response with the pending id resolves slot 0. -/
theorem send_drops_only_idless_witness :
    send c2State (JSONRPCMessage.notification "note" none) = c2State ∧
    (send c2State (JSONRPCMessage.response 1 Json.null)).slots 0
      = some (JSONRPCMessage.response 1 Json.null) ∧
    (send c2State (JSONRPCMessage.response 1 Json.null)).pending 1 = none :=
  ⟨(send_drops_only_idless c2State (JSONRPCMessage.notification "note" none)).1 rfl,
   ((send_drops_only_idless c2State (JSONRPCMessage.response 1 Json.null)).2
      1 0 rfl rfl).1,
   ((send_drops_only_idless c2State (JSONRPCMessage.response 1 Json.null)).2
      1 0 rfl rfl).2⟩

/-- C3: `handleJSONRPCMessages` clears the Pending-Request Table first
(the clear event heads the trace), the resulting table only holds ids of
the current batch's Request subset, and a `send` whose id is not among
those ids — e.g. a Response correlating to a previous invocation's
Request — leaves the state unchanged: it is dropped and resolves no slot
of the current invocation. -/
theorem handleJSONRPCMessages_awaiting_eq (s : TransportState)
    (msgs : List JSONRPCMessage)
    (hne : (msgs.filter isRequestMessage).isEmpty = false) :
    handleJSONRPCMessages s msgs =
      ({ started := s.started,
         pending := buildPending (msgs.filter isRequestMessage) 0 (fun _ => none),
         slots := fun _ => none },
       TransportEvent.clearTable :: msgs.map TransportEvent.onMessage ++
         (msgs.filter isRequestMessage).enum.map
           (fun p => TransportEvent.createEntry (reqIdD p.2) p.1),
       SetupOutcome.awaiting (msgs.filter isRequestMessage)) := by
  unfold handleJSONRPCMessages startFreshSession
  simp only [hne, Bool.false_eq_true, if_false]

/-- C3: `handleJSONRPCMessages` clears the Pending-Request Table first
(the clear event heads the trace, before every dispatch), the resulting
table only holds ids of the current batch's Request subset, and a `send`
whose id is not among those ids — e.g. a Response correlating to a
previous invocation's Request — leaves the state unchanged: it is
dropped and resolves no slot of the current invocation. -/
theorem handleJSONRPCMessages_clears_table
    (s : TransportState) (msgs : List JSONRPCMessage)
    (resp : JSONRPCMessage)
    (hor : reqIdD resp ∉ (msgs.filter isRequestMessage).map reqIdD) :
    ((handleJSONRPCMessages s msgs).2.1.head? = some TransportEvent.clearTable) ∧
    (∀ k j, ((handleJSONRPCMessages s msgs).1).pending k = some j →
      k ∈ (msgs.filter isRequestMessage).map reqIdD) ∧
    send (handleJSONRPCMessages s msgs).1 resp
      = (handleJSONRPCMessages s msgs).1 := by
  cases hemp : (msgs.filter isRequestMessage).isEmpty with
  | true =>
    rw [handleJSONRPCMessages_noReply_eq s msgs hemp]
    refine ⟨rfl, ?_, ?_⟩
    · intro k j hkj
      cases hkj
    · rcases send_eq_or { s with pending := fun _ => none } resp with
        heq | ⟨slot, _, hp, _⟩
      · exact heq
      · cases hp
  | false =>
    rw [handleJSONRPCMessages_awaiting_eq s msgs hemp]
    have hpend : ∀ k j,
        buildPending (msgs.filter isRequestMessage) 0 (fun _ => none) k = some j →
        k ∈ (msgs.filter isRequestMessage).map reqIdD := by
      intro k j hkj
      rw [← buildPending_isSome_iff (msgs.filter isRequestMessage) k, hkj]
      rfl
    refine ⟨rfl, ?_, ?_⟩
    · exact hpend
    · rcases send_eq_or
        { started := s.started,
          pending := buildPending (msgs.filter isRequestMessage) 0 (fun _ => none),
          slots := fun _ => none } resp with heq | ⟨slot, _, hp, _⟩
      · exact heq
      · exact absurd (hpend (reqIdD resp) slot hp) hor

/-- A transport state holding a stale entry (id 7) from a previous
invocation. -/
def c3Stale : TransportState :=
  { started := true,
    pending := fun k => if k = 7 then some 0 else none,
    slots := fun _ => none }

/-- Witness for C3: after a fresh batch containing only Request id 1,
the stale entry for id 7 is gone and a Response with id 7 is dropped. -/
theorem handleJSONRPCMessages_clears_table_witness :
    (reqIdD (JSONRPCMessage.response 7 Json.null) ∉
      ([JSONRPCMessage.request 1 "m" none].filter isRequestMessage).map reqIdD) ∧
    (((handleJSONRPCMessages c3Stale [JSONRPCMessage.request 1 "m" none]).2.1.head?
        = some TransportEvent.clearTable) ∧
     (∀ k j,
        ((handleJSONRPCMessages c3Stale [JSONRPCMessage.request 1 "m" none]).1).pending k
          = some j →
        k ∈ ([JSONRPCMessage.request 1 "m" none].filter isRequestMessage).map reqIdD) ∧
     send (handleJSONRPCMessages c3Stale [JSONRPCMessage.request 1 "m" none]).1
        (JSONRPCMessage.response 7 Json.null)
       = (handleJSONRPCMessages c3Stale [JSONRPCMessage.request 1 "m" none]).1) :=
  ⟨by decide,
   handleJSONRPCMessages_clears_table c3Stale [JSONRPCMessage.request 1 "m" none]
     (JSONRPCMessage.response 7 Json.null) (by decide)⟩

/-- C4: a batch whose Request subset is empty (only Notifications and/or
Response-shaped messages) returns the distinguished "no reply" outcome
without creating any Pending-Request Table entry, and the bridge renders
202 with an empty body; when the adapter returns messages the bridge
renders 200 with the JSON-serialized result as body. -/
theorem noReply_renders_202 (s : TransportState) (msgs : List JSONRPCMessage)
    (hemp : msgs.filter isRequestMessage = []) :
    (handleJSONRPCMessages s msgs).2.2 = SetupOutcome.noReply ∧
    (∀ k, ((handleJSONRPCMessages s msgs).1).pending k = none) ∧
    renderAfter none = { statusCode := 202, body := "" } ∧
    (∀ r, renderAfter (some r) =
      { statusCode := 200, body := stringifyHandleResult r }) := by
  have he : (msgs.filter isRequestMessage).isEmpty = true := by rw [hemp]; rfl
  rw [handleJSONRPCMessages_noReply_eq s msgs he]
  exact ⟨rfl, fun k => rfl, rfl, fun r => rfl⟩

/-- Witness for C4: a Notification-only batch on a fresh adapter. -/
theorem noReply_renders_202_witness :
    ([JSONRPCMessage.notification "ping" none].filter isRequestMessage = []) ∧
    ((handleJSONRPCMessages
        { started := true, pending := fun _ => none, slots := fun _ => none }
        [JSONRPCMessage.notification "ping" none]).2.2 = SetupOutcome.noReply ∧
     (∀ k, ((handleJSONRPCMessages
        { started := true, pending := fun _ => none, slots := fun _ => none }
        [JSONRPCMessage.notification "ping" none]).1).pending k = none) ∧
     renderAfter none = { statusCode := 202, body := "" } ∧
     (∀ r, renderAfter (some r) =
       { statusCode := 200, body := stringifyHandleResult r })) :=
  ⟨rfl,
   noReply_renders_202
     { started := true, pending := fun _ => none, slots := fun _ => none }
     [JSONRPCMessage.notification "ping" none] rfl⟩

theorem trace_filterMap (msgs : List JSONRPCMessage)
    (tail : List TransportEvent)
    (htail : ∀ e ∈ tail, onMessageOf e = none) :
    (TransportEvent.clearTable :: msgs.map TransportEvent.onMessage
      ++ tail).filterMap onMessageOf = msgs := by
  have hcons : ∀ l : List TransportEvent,
      (TransportEvent.clearTable :: l).filterMap onMessageOf
        = l.filterMap onMessageOf := fun l => rfl
  rw [List.filterMap_append, hcons, List.filterMap_map]
  have h1 : List.filterMap (onMessageOf ∘ TransportEvent.onMessage) msgs
      = msgs := by
    have hcomp : (onMessageOf ∘ TransportEvent.onMessage) = some := by
      funext m
      rfl
    rw [hcomp, List.filterMap_some]
  have h2 : tail.filterMap onMessageOf = [] :=
    List.filterMap_eq_nil.mpr htail
  rw [h1, h2, List.append_nil]

/-- C7: `handleJSONRPCMessages` invokes `onmessage` exactly once per
input message, in the original sequence order, before any pending entry
is created (so before any awaiting begins); this also holds for
Notification-only batches, whose outcome is "no reply". -/
theorem handleJSONRPCMessages_dispatch_order (s : TransportState)
    (msgs : List JSONRPCMessage) :
    ∃ tail,
      (handleJSONRPCMessages s msgs).2.1 =
        TransportEvent.clearTable :: msgs.map TransportEvent.onMessage ++ tail ∧
      (∀ e ∈ tail, onMessageOf e = none) ∧
      (handleJSONRPCMessages s msgs).2.1.filterMap onMessageOf = msgs := by
  cases hemp : (msgs.filter isRequestMessage).isEmpty with
  | true =>
    rw [handleJSONRPCMessages_noReply_eq s msgs hemp]
    refine ⟨[], by simp, by simp, ?_⟩
    have htf := trace_filterMap msgs [] (by simp)
    simpa using htf
  | false =>
    rw [handleJSONRPCMessages_awaiting_eq s msgs hemp]
    have htail : ∀ e ∈ (msgs.filter isRequestMessage).enum.map
        (fun p => TransportEvent.createEntry (reqIdD p.2) p.1),
        onMessageOf e = none := by
      intro e he
      obtain ⟨p, _, hpe⟩ := List.mem_map.mp he
      rw [← hpe]
      rfl
    exact ⟨_, rfl, htail, trace_filterMap msgs _ htail⟩

/-- C8: on a fresh adapter instance the first `start()` succeeds and
sets the started flag; a second `start()` — and more generally any
`start()` on a started instance — throws, leaving the state (flag and
Pending-Request Table) unchanged. -/
theorem start_idempotent_once (s : TransportState) (h : s.started = false) :
    (start s).1 = none ∧
    (start s).2.started = true ∧
    ((start (start s).2).1).isSome = true ∧
    (start (start s).2).2 = (start s).2 ∧
    (∀ s2 : TransportState, s2.started = true →
      (start s2).1.isSome = true ∧ (start s2).2 = s2) := by
  have h1 : start s = (none, { s with started := true }) := by
    unfold start
    rw [if_neg (by simp [h] : ¬ s.started = true)]
  have h2 : ∀ s2 : TransportState, s2.started = true →
      start s2 = (some "HttpServerTransport already started", s2) := by
    intro s2 hs2
    unfold start
    rw [if_pos hs2]
  refine ⟨by rw [h1], by rw [h1], ?_, ?_,
    fun s2 hs2 => ⟨by rw [h2 s2 hs2]; rfl, by rw [h2 s2 hs2]⟩⟩
  · rw [h1, h2 { s with started := true } rfl]
    rfl
  · rw [h1, h2 { s with started := true } rfl]

/-- A fresh (never started) adapter instance. -/
def c8Fresh : TransportState :=
  { started := false, pending := fun _ => none, slots := fun _ => none }

/-- Witness for C8 on a concrete fresh instance. -/
theorem start_idempotent_once_witness :
    ((start c8Fresh).1 = none) ∧
    ((start c8Fresh).2.started = true) ∧
    (((start (start c8Fresh).2).1).isSome = true) ∧
    ((start (start c8Fresh).2).2 = (start c8Fresh).2) :=
  ⟨(start_idempotent_once _ rfl).1, (start_idempotent_once _ rfl).2.1,
   (start_idempotent_once _ rfl).2.2.1, (start_idempotent_once _ rfl).2.2.2.1⟩

/-- C10: when an earlier and a later Request of the batch share an id,
the later Request's `set` overwrites the earlier one's entry: the table
(one entry per id by construction) never points at the earlier index, a
single `send` resolves at most one slot, and the earlier Request's slot
can never be resolved by any delivery sequence. -/
theorem duplicate_ids_overwrite (s : TransportState)
    (msgs : List JSONRPCMessage) (i j : Nat) (ri rj : JSONRPCMessage)
    (hij : i < j)
    (hgi : (msgs.filter isRequestMessage).get? i = some ri)
    (hgj : (msgs.filter isRequestMessage).get? j = some rj)
    (hdup : reqIdD ri = reqIdD rj) :
    (∀ k, ((handleJSONRPCMessages s msgs).1).pending k ≠ some i) ∧
    (∀ (st : TransportState) (m : JSONRPCMessage) (j1 j2 : Nat),
      (send st m).slots j1 ≠ st.slots j1 → (send st m).slots j2 ≠ st.slots j2 →
      j1 = j2) ∧
    (∀ resps, (sendAll (handleJSONRPCMessages s msgs).1 resps).slots i = none) := by
  have hne : (msgs.filter isRequestMessage).isEmpty = false := by
    cases hc : msgs.filter isRequestMessage with
    | nil => rw [hc] at hgi; cases hgi
    | cons a l => rfl
  have hstate := handleJSONRPCMessages_state s msgs hne
  have hnopend : ∀ k, ((handleJSONRPCMessages s msgs).1).pending k ≠ some i := by
    intro k hk
    rw [hstate] at hk
    simp only at hk
    rw [buildPending_lookup] at hk
    cases hl : lastIdxOf k (msgs.filter isRequestMessage) with
    | none => rw [hl] at hk; cases hk
    | some j2 =>
      rw [hl] at hk
      injection hk with hk
      have hlast := lastIdxOf_last k (msgs.filter isRequestMessage) j2 hl
        j rj (by omega) hgj
      obtain ⟨r', hg', hid'⟩ := lastIdxOf_get k (msgs.filter isRequestMessage) j2 hl
      rw [show j2 = i by omega, hgi] at hg'
      injection hg' with hg'
      exact hlast (by rw [← hdup, hg']; exact hid')
  have hone : ∀ (st : TransportState) (m : JSONRPCMessage) (j1 j2 : Nat),
      (send st m).slots j1 ≠ st.slots j1 → (send st m).slots j2 ≠ st.slots j2 →
      j1 = j2 := by
    intro st m j1 j2 h1 h2
    rcases send_eq_or st m with heq | ⟨slot, _, _, _, hslots, _⟩
    · exact absurd (by rw [heq]) h1
    · have e1 : j1 = slot := by
        by_contra hne1
        exact h1 (by rw [hslots j1, if_neg hne1])
      have e2 : j2 = slot := by
        by_contra hne2
        exact h2 (by rw [hslots j2, if_neg hne2])
      rw [e1, e2]
  have hslotnone : ((handleJSONRPCMessages s msgs).1).slots i = none := by
    rw [hstate]
  exact ⟨hnopend, hone,
    fun resps => (sendAll_avoids_slot i resps _ hslotnone hnopend).1⟩

/-- Witness for C10: two Requests with id 1; slot 0 (the earlier) stays
unresolved by any delivery sequence. -/
theorem duplicate_ids_overwrite_witness :
    (([JSONRPCMessage.request 1 "a" none,
       JSONRPCMessage.request 1 "b" none].filter isRequestMessage).get? 0
      = some (JSONRPCMessage.request 1 "a" none)) ∧
    (∀ resps,
      (sendAll (handleJSONRPCMessages
        { started := true, pending := fun _ => none, slots := fun _ => none }
        [JSONRPCMessage.request 1 "a" none,
         JSONRPCMessage.request 1 "b" none]).1 resps).slots 0 = none) :=
  ⟨rfl,
   (duplicate_ids_overwrite
     { started := true, pending := fun _ => none, slots := fun _ => none }
     [JSONRPCMessage.request 1 "a" none, JSONRPCMessage.request 1 "b" none]
     0 1 (JSONRPCMessage.request 1 "a" none) (JSONRPCMessage.request 1 "b" none)
     (by omega) rfl rfl rfl).2.2⟩

/-- C5: a missing or non-JSON `accept` header is rejected 406; otherwise
a missing or non-JSON `content-type` header is rejected 415; the accept
check runs first and both checks ignore the body (the body is an
arbitrary parameter of both rejection statements); every rejection —
422 included — carries the envelope
`{"jsonrpc":"2.0","error":{"code":-32000,...},"id":123}` with the same
fixed placeholder id 123. -/
theorem mcpBefore_negotiation (headers : List (String × String))
    (isB64 : Bool) (body : String) :
    (headerAccepts (firstHeader headers "accept" "Accept") = false →
      mcpBefore headers isB64 body = Except.error (createMcpError 406 (-32000)
        "Not Acceptable: Client must accept application/json")) ∧
    (headerAccepts (firstHeader headers "accept" "Accept") = true →
      headerAccepts (firstHeader headers "content-type" "Content-Type") = false →
      mcpBefore headers isB64 body = Except.error (createMcpError 415 (-32000)
        "Unsupported Media Type: Content-Type must be application/json")) ∧
    (∀ e, mcpBefore headers isB64 body = Except.error e →
      (e.statusCode = 406 ∨ e.statusCode = 415 ∨ e.statusCode = 422) ∧
      ∃ m, e = createMcpError e.statusCode (-32000) m ∧
        e.message = Json.stringify (Json.obj
          [("jsonrpc", Json.str "2.0"),
           ("error", Json.obj [("code", Json.num (-32000)),
             ("message", Json.str m)]),
           ("id", Json.num 123)])) := by
  refine ⟨mcpBefore_406 headers isB64 body, mcpBefore_415 headers isB64 body, ?_⟩
  intro e he
  cases hacc : headerAccepts (firstHeader headers "accept" "Accept") with
  | false =>
    rw [mcpBefore_406 headers isB64 body hacc] at he
    injection he with he
    subst he
    exact ⟨Or.inl rfl, "Not Acceptable: Client must accept application/json",
      rfl, rfl⟩
  | true =>
    cases hct : headerAccepts (firstHeader headers "content-type" "Content-Type") with
    | false =>
      rw [mcpBefore_415 headers isB64 body hacc hct] at he
      injection he with he
      subst he
      exact ⟨Or.inr (Or.inl rfl),
        "Unsupported Media Type: Content-Type must be application/json",
        rfl, rfl⟩
    | true =>
      cases hpb : parseBody isB64 body with
      | none =>
        rw [mcpBefore_422 headers isB64 body hacc hct hpb] at he
        injection he with he
        subst he
        exact ⟨Or.inr (Or.inr rfl),
          "Unprocessable Entity: Invalid or malformed JSON was provided",
          rfl, rfl⟩
      | some msgs2 =>
        rw [mcpBefore_ok headers isB64 body msgs2 hacc hct hpb] at he
        cases he

/-- Witness for C5: no accept header at all — but a content-type — gives
the 406 envelope regardless of the body. -/
theorem mcpBefore_negotiation_witness :
    (headerAccepts (firstHeader [("content-type", "application/json")]
        "accept" "Accept") = false) ∧
    mcpBefore [("content-type", "application/json")] false "anything"
      = Except.error (createMcpError 406 (-32000)
        "Not Acceptable: Client must accept application/json") :=
  ⟨rfl,
   (mcpBefore_negotiation [("content-type", "application/json")] false
     "anything").1 rfl⟩

/-- C6: base64 decoding is applied exactly when the encoding flag is
set; a single JSON object is normalized into a one-element sequence; a
validation failure of ANY element of the batch rejects the whole request
with the 422 error (nothing is stored — the result is the thrown error,
not a partial message list). -/
theorem mcpBefore_body_pipeline (headers : List (String × String))
    (body : String) :
    (∀ b, parseBody true b = parseBody false (base64Decode b)) ∧
    (∀ ms, jsonParse body = some (Json.obj ms) →
      parseBody false body = validateAll [Json.obj ms]) ∧
    (∀ x xs, jsonParse body = some (Json.arr xs) → x ∈ xs →
      validateMessage x = none → parseBody false body = none) ∧
    (∀ isB64, headerAccepts (firstHeader headers "accept" "Accept") = true →
      headerAccepts (firstHeader headers "content-type" "Content-Type") = true →
      parseBody isB64 body = none →
      mcpBefore headers isB64 body = Except.error (createMcpError 422 (-32000)
        "Unprocessable Entity: Invalid or malformed JSON was provided")) := by
  refine ⟨fun b => rfl, ?_, ?_, fun isB64 => mcpBefore_422 headers isB64 body⟩
  · intro ms hp
    unfold parseBody
    rw [if_neg Bool.false_ne_true]
    show (match jsonParse body with
      | none => none
      | some j => validateAll (normalizeBody j)) = validateAll [Json.obj ms]
    rw [hp]
    rfl
  · intro x xs hp hx hv
    unfold parseBody
    rw [if_neg Bool.false_ne_true]
    show (match jsonParse body with
      | none => none
      | some j => validateAll (normalizeBody j)) = none
    rw [hp]
    exact validateAll_none_of_mem x xs hx hv

/-- Witness for C6: the body `[{"jsonrpc":"2.0"}]` parses as JSON but
its only element fails message validation, so the whole request is
rejected 422. -/
theorem mcpBefore_body_pipeline_witness :
    (jsonParse "[\x7b\"jsonrpc\":\"2.0\"\x7d]"
      = some (Json.arr [Json.obj [("jsonrpc", Json.str "2.0")]])) ∧
    (validateMessage (Json.obj [("jsonrpc", Json.str "2.0")]) = none) ∧
    mcpBefore [("accept", "application/json"), ("content-type", "application/json")]
        false "[\x7b\"jsonrpc\":\"2.0\"\x7d]"
      = Except.error (createMcpError 422 (-32000)
        "Unprocessable Entity: Invalid or malformed JSON was provided") :=
  ⟨rfl, rfl,
   (mcpBefore_body_pipeline
      [("accept", "application/json"), ("content-type", "application/json")]
      "[\x7b\"jsonrpc\":\"2.0\"\x7d]").2.2.2 false rfl rfl
     ((mcpBefore_body_pipeline
        [("accept", "application/json"), ("content-type", "application/json")]
        "[\x7b\"jsonrpc\":\"2.0\"\x7d]").2.2.1
       (Json.obj [("jsonrpc", Json.str "2.0")])
       [Json.obj [("jsonrpc", Json.str "2.0")]] rfl (by simp) rfl)⟩

/-- C9: header lookup is case-sensitive to the two exact spellings only:
`accept`/`Accept` and `content-type`/`Content-Type`; a request carrying
these headers under any other casing (e.g. `ACCEPT`) is treated as if
the header were absent and rejected 406 resp. 415. -/
theorem mcpBefore_header_case (headers : List (String × String))
    (isB64 : Bool) (body : String) :
    ((∀ p ∈ headers, p.1 ≠ "accept" ∧ p.1 ≠ "Accept") →
      mcpBefore headers isB64 body = Except.error (createMcpError 406 (-32000)
        "Not Acceptable: Client must accept application/json")) ∧
    (headerAccepts (firstHeader headers "accept" "Accept") = true →
      (∀ p ∈ headers, p.1 ≠ "content-type" ∧ p.1 ≠ "Content-Type") →
      mcpBefore headers isB64 body = Except.error (createMcpError 415 (-32000)
        "Unsupported Media Type: Content-Type must be application/json")) := by
  constructor
  · intro h
    apply mcpBefore_406
    unfold firstHeader
    rw [hLookup_eq_none headers "accept" (fun p hp => (h p hp).1),
      hLookup_eq_none headers "Accept" (fun p hp => (h p hp).2)]
    rfl
  · intro hacc h
    apply mcpBefore_415 headers isB64 body hacc
    unfold firstHeader
    rw [hLookup_eq_none headers "content-type" (fun p hp => (h p hp).1),
      hLookup_eq_none headers "Content-Type" (fun p hp => (h p hp).2)]
    rfl

/-- Witness for C9: headers supplied as `ACCEPT` / `Content-type` (wrong
casings) with JSON values are treated as absent — 406. -/
theorem mcpBefore_header_case_witness :
    (∀ p ∈ [("ACCEPT", "application/json"), ("Content-type", "application/json")],
      Prod.fst p ≠ "accept" ∧ Prod.fst p ≠ "Accept") ∧
    mcpBefore [("ACCEPT", "application/json"), ("Content-type", "application/json")]
        false "\x7b\x7d"
      = Except.error (createMcpError 406 (-32000)
        "Not Acceptable: Client must accept application/json") :=
  ⟨by decide,
   (mcpBefore_header_case
      [("ACCEPT", "application/json"), ("Content-type", "application/json")]
      false "\x7b\x7d").1 (by decide)⟩

end Mcp
